import Mathlib

/-!
Verification of the TinyNNDiagramGenerator layout engine.

This development is a shallow embedding of the two Python source files of the
repository:

* `src/main.py` — the layout/drawing function `draw_dynamic_neural_net` together
  with the lenient request schema `NeuralNetInput`;
* `src/models.py` — the strict request schema `DiagramInput` with its
  `validate_colors_match_layers` model validator.

The drawing code is modelled as a pure function producing a `Scene`: the list of
node-draw instructions, bias-node-draw instructions and edge-draw instructions
issued by the Python code, together with the canvas bounds.  Coordinates are
rationals (every coordinate computed by the source is a dyadic rational except
for the bias offset literal `0.8`, which plays no arithmetic role).  A Python
call that raises — `max(layer_sizes)` on an empty list — is modelled by the
function returning `none`.
-/

namespace TinyNN

/-- Horizontal space between layers (`x_spacing = 3` in `draw_dynamic_neural_net`). -/
def x_spacing : ℚ := 3

/-- Vertical space between nodes in a layer (`y_spacing = 1.5`). -/
def y_spacing : ℚ := 3 / 2

/-- Size of each node circle (`node_radius = 0.3`). -/
def node_radius : ℚ := 3 / 10

/-- Thickness of connection lines (`line_width = 0.5`). -/
def line_width : ℚ := 1 / 2

/-- Vertical offset of the bias nodes above `max_y` (the literal `0.8` in
`y = max_y + 0.8`). -/
def bias_y_offset : ℚ := 4 / 5

/-- `x_positions = [i * x_spacing for i in range(num_layers)]`. -/
def x_positions (num_layers : Nat) : List ℚ :=
  (List.range num_layers).map fun (i : Nat) => (i : ℚ) * x_spacing

/-- One regular node drawn by `draw_layer`: its identity `L<layer>_N<idx>`
(the key used in the `node_positions` dictionary), its centre, radius, fill
color and text label. -/
structure SceneNode where
  layer : Nat
  idx : Nat
  pos : ℚ × ℚ
  radius : ℚ
  color : String
  label : String
deriving DecidableEq, Repr

/-- One bias node drawn by the bias loop: its target layer `l`
(the key `b<l>` of the `bias_nodes` dictionary), centre, radius, fill color and
label. -/
structure SceneBias where
  target : Nat
  pos : ℚ × ℚ
  radius : ℚ
  color : String
  label : String
deriving DecidableEq, Repr

/-- Line style of an edge: the plain `ax.plot` calls are solid, the bias
connections use `linestyle='--'`. -/
inductive EdgeStyle
  | solid
  | dashed
deriving DecidableEq, Repr

instance : BEq EdgeStyle := ⟨fun a b => decide (a = b)⟩

/-- One edge drawn by the connection loop: the boundary index `l` of the
enclosing `for l in range(num_layers - 1)` loop, the two endpoints passed to
`ax.plot`, and the line style. -/
structure SceneEdge where
  boundary : Nat
  src : ℚ × ℚ
  dst : ℚ × ℚ
  style : EdgeStyle
deriving DecidableEq, Repr

/-- The scene produced by one call of `draw_dynamic_neural_net`: every node,
bias node and edge drawn on the axes, plus the `set_xlim` / `set_ylim` bounds. -/
structure Scene where
  nodes : List SceneNode
  biasNodes : List SceneBias
  edges : List SceneEdge
  xlim : ℚ × ℚ
  ylim : ℚ × ℚ
deriving DecidableEq, Repr

/-- `get_prefix(layer_idx)` from `draw_dynamic_neural_net` (closure over
`num_layers`): `'x'` for the input layer, `'o'` for the output layer, `'h'`
for hidden layers. -/
def get_prefix (num_layers layer_idx : Nat) : String :=
  if layer_idx = 0 then "x"
  else if layer_idx = num_layers - 1 then "o"
  else "h"

/-- `draw_layer(layer_idx, num_nodes, color)`: the nodes it draws, with
`y_positions = [-(i * y_spacing - (num_nodes - 1) * y_spacing / 2) for i in range(num_nodes)]`,
`x = x_positions[layer_idx]`, and label `f"{get_prefix(layer_idx)}{i + 1}"`. -/
def draw_layer (num_layers layer_idx num_nodes : Nat) (color : String) :
    List SceneNode :=
  (List.range num_nodes).map fun i =>
    { layer := layer_idx
      idx := i
      pos := ((x_positions num_layers).getD layer_idx 0,
              -((i : ℚ) * y_spacing - ((num_nodes : ℚ) - 1) * y_spacing / 2))
      radius := node_radius
      color := color
      label := get_prefix num_layers layer_idx ++ toString (i + 1) }

/-- The per-layer fill color: `colors[layer_idx] if layer_idx < len(colors) else 'blue'`. -/
def layer_color (colors : List String) (layer_idx : Nat) : String :=
  if layer_idx < colors.length then colors.getD layer_idx "blue" else "blue"

/-- All regular nodes: `for layer_idx, num_nodes in enumerate(layer_sizes): draw_layer(...)`. -/
def scene_nodes (layer_sizes : List Nat) (colors : List String) : List SceneNode :=
  (List.range layer_sizes.length).flatMap fun layer_idx =>
    draw_layer layer_sizes.length layer_idx (layer_sizes.getD layer_idx 0)
      (layer_color colors layer_idx)

/-- The entry stored in the `node_positions` dictionary under key
`L<l>_N<i>`: exactly the `(x, y)` saved by `draw_layer` for that node. -/
def node_positions (layer_sizes : List Nat) (l i : Nat) : ℚ × ℚ :=
  ((x_positions layer_sizes.length).getD l 0,
   -((i : ℚ) * y_spacing - ((layer_sizes.getD l 0 : ℚ) - 1) * y_spacing / 2))

/-- The entry stored in the `bias_nodes` dictionary under key `b<l>`:
`x = (x_positions[l - 1] + x_positions[l]) / 2`, `y = max_y + 0.8`. -/
def bias_pos (num_layers : Nat) (max_y : ℚ) (l : Nat) : ℚ × ℚ :=
  (((x_positions num_layers).getD (l - 1) 0 + (x_positions num_layers).getD l 0) / 2,
   max_y + bias_y_offset)

/-- The bias nodes drawn by `for l in range(1, num_layers)`. -/
def scene_bias_nodes (num_layers : Nat) (bias_color : String) (max_y : ℚ) :
    List SceneBias :=
  (List.range' 1 (num_layers - 1)).map fun l =>
    { target := l
      pos := bias_pos num_layers max_y l
      radius := node_radius
      color := bias_color
      label := "b" ++ toString l }

/-- The solid edges of boundary `l`: the inner double loop
`for i in range(layer_sizes[l]): for j in range(layer_sizes[l + 1]): ax.plot(...)`
connecting every node of layer `l` to every node of layer `l + 1`. -/
def solid_edges_at (layer_sizes : List Nat) (l : Nat) : List SceneEdge :=
  (List.range (layer_sizes.getD l 0)).flatMap fun i =>
    (List.range (layer_sizes.getD (l + 1) 0)).map fun j =>
      { boundary := l
        src := node_positions layer_sizes l i
        dst := node_positions layer_sizes (l + 1) j
        style := EdgeStyle.solid }

/-- The dashed edges of boundary `l`: the loop
`for j in range(layer_sizes[l + 1]): ax.plot(..., linestyle='--')`
connecting bias node `b<l+1>` to every node of layer `l + 1`. -/
def dashed_edges_at (layer_sizes : List Nat) (max_y : ℚ) (l : Nat) :
    List SceneEdge :=
  (List.range (layer_sizes.getD (l + 1) 0)).map fun j =>
    { boundary := l
      src := bias_pos layer_sizes.length max_y (l + 1)
      dst := node_positions layer_sizes (l + 1) j
      style := EdgeStyle.dashed }

/-- The edges drawn by `for l in range(num_layers - 1)`: for each boundary,
first the complete bipartite solid connections, then the dashed bias
connections. -/
def scene_edges (layer_sizes : List Nat) (max_y : ℚ) : List SceneEdge :=
  (List.range (layer_sizes.length - 1)).flatMap fun l =>
    solid_edges_at layer_sizes l ++ dashed_edges_at layer_sizes max_y l

/-- `draw_dynamic_neural_net(layer_sizes, colors, bias_color)` as a scene
builder.  The Python function evaluates `max_y = max(layer_sizes) * y_spacing / 2`,
which raises `ValueError` when `layer_sizes` is empty; that exceptional exit is
the `none` branch.  Otherwise the scene collects every draw call and the canvas
bounds `set_xlim(-1, x_positions[-1] + 2)`, `set_ylim(-max_y - 1.5, max_y + 2)`. -/
def draw_dynamic_neural_net (layer_sizes : List Nat) (colors : List String)
    (bias_color : String) : Option Scene :=
  let num_layers := layer_sizes.length
  match layer_sizes.max? with
  | none => none
  | some mx =>
    let max_y : ℚ := (mx : ℚ) * y_spacing / 2
    some
      { nodes := scene_nodes layer_sizes colors
        biasNodes := scene_bias_nodes num_layers bias_color max_y
        edges := scene_edges layer_sizes max_y
        xlim := (-1, (x_positions num_layers).getLastD 0 + 2)
        ylim := (-max_y - 3 / 2, max_y + 2) }

/-- The lenient request schema `NeuralNetInput` from `src/main.py`. -/
structure NeuralNetInput where
  layer_sizes : List Int
  colors : List String
  bias_color : String
deriving DecidableEq, Repr

/-- Pydantic construction of `NeuralNetInput`: the schema declares the field
types `list[int]`, `list[str]`, `str` and no value-level validator, so every
well-typed request body is accepted. -/
def NeuralNetInput.validate (layer_sizes : List Int) (colors : List String)
    (bias_color : String) : Except String NeuralNetInput :=
  Except.ok ⟨layer_sizes, colors, bias_color⟩

/-- The strict request schema `DiagramInput` from `src/models.py`. -/
structure DiagramInput where
  layer_sizes : List Int
  colors : List String
  bias_color : String
deriving DecidableEq, Repr

/-- Pydantic construction of `DiagramInput`: after the typed fields are read,
the `model_validator` `validate_colors_match_layers` raises
`ValueError("The number of colors must match the number of layers.")` when
`len(self.layer_sizes) != len(self.colors)`. -/
def DiagramInput.validate (layer_sizes : List Int) (colors : List String)
    (bias_color : String) : Except String DiagramInput :=
  if layer_sizes.length ≠ colors.length then
    Except.error "The number of colors must match the number of layers."
  else
    Except.ok ⟨layer_sizes, colors, bias_color⟩

/-! ### List helper lemmas -/

lemma filter_const_of_mem {α : Type} (p : α → Bool) (xs : List α) (b : Bool)
    (h : ∀ x ∈ xs, p x = b) : xs.filter p = if b then xs else [] := by
  induction xs with
  | nil => cases b <;> simp
  | cons a t ih =>
    have ha := h a (List.mem_cons_self a t)
    have ht := ih fun x hx => h x (List.mem_cons_of_mem a hx)
    cases b <;> simp_all [List.filter_cons]

lemma flatMap_range_ite {α : Type} (m l : Nat) (g : Nat → List α) :
    ((List.range m).flatMap fun i => if i = l then g i else []) =
      if l < m then g l else [] := by
  induction m with
  | zero => simp
  | succ m ih =>
    rw [List.range_succ, List.flatMap_append, ih]
    rcases Nat.lt_trichotomy l m with h | h | h
    · have h1 : l < m + 1 := Nat.lt_succ_of_lt h
      have h2 : ¬ m = l := by omega
      simp [h, h1, h2]
    · subst h
      simp
    · have h1 : ¬ l < m := by omega
      have h2 : ¬ l < m + 1 := by omega
      have h3 : ¬ m = l := by omega
      simp [h1, h2, h3]

lemma filter_flatMap_eq {α β : Type} (xs : List α) (f : α → List β) (p : β → Bool) :
    (xs.flatMap f).filter p = xs.flatMap fun a => (f a).filter p := by
  induction xs with
  | nil => simp
  | cons a t ih => simp [List.flatMap_cons, List.filter_append, ih]

lemma sum_range_getD (ls : List Nat) :
    ((List.range ls.length).map fun i => ls.getD i 0).sum = ls.sum := by
  induction ls with
  | nil => simp
  | cons a t ih =>
    rw [List.length_cons, List.range_succ_eq_map, List.map_cons, List.map_map,
      List.sum_cons]
    have h1 : ((List.range t.length).map ((fun i => (a :: t).getD i 0) ∘ Nat.succ))
        = (List.range t.length).map fun i => t.getD i 0 := by
      apply List.map_congr_left
      intro i _
      rfl
    rw [h1, ih]
    rfl

lemma filter_beq_range' (l n : Nat) : ∀ s : Nat,
    ((List.range' s n).filter fun x => x == l).length =
      if s ≤ l ∧ l < s + n then 1 else 0 := by
  induction n with
  | zero =>
    intro s
    have h : ¬ (s ≤ l ∧ l < s) := by omega
    simp [h]
  | succ n ih =>
    intro s
    rw [List.range'_succ, List.filter_cons]
    by_cases h : s = l
    · have hb : (s == l) = true := by simp [h]
      have h2 : ¬ (s + 1 ≤ l ∧ l < s + 1 + n) := by omega
      have h3 : s ≤ l ∧ l < s + (n + 1) := by omega
      simp [hb, ih, h2, h3]
    · have hb : (s == l) = false := by simp [h]
      have h4 : (s + 1 ≤ l ∧ l < s + 1 + n) ↔ (s ≤ l ∧ l < s + (n + 1)) := by omega
      simp [hb, ih, h4]

lemma gauss_q (n : Nat) :
    (∑ i in Finset.range n, (i : ℚ)) = (n : ℚ) * ((n : ℚ) - 1) / 2 := by
  have h := Finset.sum_range_id_mul_two n
  have h' : (∑ i in Finset.range n, (i : ℚ)) * 2 = ((n * (n - 1) : ℕ) : ℚ) := by
    rw [← Nat.cast_sum]
    exact_mod_cast h
  cases n with
  | zero => simp
  | succ k =>
    have h2 : ((((k + 1) * ((k + 1) - 1) : ℕ)) : ℚ)
        = ((k : ℚ) + 1) * (((k : ℚ) + 1) - 1) := by
      push_cast
      ring
    rw [h2] at h'
    push_cast
    linarith

lemma length_filter_map {α β : Type} (f : α → β) (p : β → Bool) (xs : List α) :
    ((xs.map f).filter p).length = (xs.filter fun x => p (f x)).length := by
  rw [List.filter_map, List.length_map]
  rfl

lemma getD_map_range {α : Type} {m l : Nat} (f : Nat → α) (d : α) (h : l < m) :
    ((List.range m).map f).getD l d = f l := by
  rw [List.getD_eq_getElem?_getD, List.getElem?_map, List.getElem?_range h]
  rfl

/-! ### Scene structure lemmas -/

lemma x_positions_getD {m l : Nat} (h : l < m) :
    (x_positions m).getD l 0 = (l : ℚ) * x_spacing := by
  unfold x_positions
  exact getD_map_range (fun i => (i : ℚ) * x_spacing) 0 h

lemma length_draw_layer (m li n : Nat) (c : String) :
    (draw_layer m li n c).length = n := by
  simp [draw_layer]

lemma draw_layer_fields {m li n : Nat} {c : String} {nd : SceneNode}
    (h : nd ∈ draw_layer m li n c) :
    nd.layer = li ∧ nd.idx < n ∧
      nd.pos = ((x_positions m).getD li 0,
        -((nd.idx : ℚ) * y_spacing - ((n : ℚ) - 1) * y_spacing / 2)) ∧
      nd.radius = node_radius ∧ nd.color = c ∧
      nd.label = get_prefix m li ++ toString (nd.idx + 1) := by
  simp only [draw_layer, List.mem_map, List.mem_range] at h
  obtain ⟨i, hi, rfl⟩ := h
  exact ⟨rfl, hi, rfl, rfl, rfl, rfl⟩

lemma mem_scene_nodes {ls : List Nat} {cs : List String} {nd : SceneNode}
    (h : nd ∈ scene_nodes ls cs) :
    nd.layer < ls.length ∧
      nd ∈ draw_layer ls.length nd.layer (ls.getD nd.layer 0)
        (layer_color cs nd.layer) := by
  simp only [scene_nodes, List.mem_flatMap, List.mem_range] at h
  obtain ⟨li, hli, hmem⟩ := h
  obtain rfl : li = nd.layer := ((draw_layer_fields hmem).1).symm
  exact ⟨hli, hmem⟩

lemma filter_draw_layer (m li n : Nat) (c : String) (l : Nat) :
    (draw_layer m li n c).filter (fun nd => nd.layer == l) =
      if li = l then draw_layer m li n c else [] := by
  have hmem : ∀ nd ∈ draw_layer m li n c, (nd.layer == l) = (li == l) := by
    intro nd hnd
    rw [(draw_layer_fields hnd).1]
  rw [filter_const_of_mem _ _ _ hmem]
  by_cases h : li = l
  · simp [h]
  · simp [h]

lemma filter_scene_nodes (ls : List Nat) (cs : List String) (l : Nat) :
    (scene_nodes ls cs).filter (fun nd => nd.layer == l) =
      if l < ls.length then
        draw_layer ls.length l (ls.getD l 0) (layer_color cs l)
      else [] := by
  unfold scene_nodes
  rw [filter_flatMap_eq]
  simp only [filter_draw_layer]
  exact flatMap_range_ite ls.length l _

lemma length_filter_scene_nodes (ls : List Nat) (cs : List String) (l : Nat) :
    ((scene_nodes ls cs).filter fun nd => nd.layer == l).length = ls.getD l 0 := by
  rw [filter_scene_nodes]
  by_cases h : l < ls.length
  · simp [h, length_draw_layer]
  · rw [if_neg h, List.getD_eq_default _ _ (Nat.le_of_not_lt h)]
    rfl

lemma length_scene_nodes (ls : List Nat) (cs : List String) :
    (scene_nodes ls cs).length = ls.sum := by
  unfold scene_nodes
  rw [List.length_flatMap]
  have h1 : (List.map
        (List.length ∘ fun li =>
          draw_layer ls.length li (ls.getD li 0) (layer_color cs li))
        (List.range ls.length))
      = (List.range ls.length).map fun i => ls.getD i 0 := by
    apply List.map_congr_left
    intro i _
    simp [Function.comp, length_draw_layer]
  rw [h1, sum_range_getD]

lemma sum_y_draw_layer (m li n : Nat) (c : String) :
    ((draw_layer m li n c).map fun nd => nd.pos.2).sum = 0 := by
  unfold draw_layer
  rw [List.map_map]
  have h0 : ((List.range n).map
        ((fun nd : SceneNode => nd.pos.2) ∘ fun i =>
          ({ layer := li, idx := i,
             pos := ((x_positions m).getD li 0,
               -((i : ℚ) * y_spacing - ((n : ℚ) - 1) * y_spacing / 2)),
             radius := node_radius, color := c,
             label := get_prefix m li ++ toString (i + 1) } : SceneNode))).sum
      = ∑ i in Finset.range n,
          (-((i : ℚ) * y_spacing - ((n : ℚ) - 1) * y_spacing / 2)) := rfl
  rw [h0]
  have h1 : ∑ i in Finset.range n,
        (-((i : ℚ) * y_spacing - ((n : ℚ) - 1) * y_spacing / 2))
      = ∑ i in Finset.range n,
          (((n : ℚ) - 1) * y_spacing / 2 - (i : ℚ) * y_spacing) := by
    apply Finset.sum_congr rfl
    intro i _
    ring
  rw [h1, Finset.sum_sub_distrib, Finset.sum_const, Finset.card_range,
    ← Finset.sum_mul, gauss_q]
  simp only [nsmul_eq_mul]
  ring

/-! ### Bias node lemmas -/

lemma length_scene_bias_nodes (m : Nat) (bc : String) (my : ℚ) :
    (scene_bias_nodes m bc my).length = m - 1 := by
  simp [scene_bias_nodes]

lemma mem_scene_bias_nodes {m : Nat} {bc : String} {my : ℚ} {b : SceneBias}
    (h : b ∈ scene_bias_nodes m bc my) :
    1 ≤ b.target ∧ b.target < m ∧ b.pos = bias_pos m my b.target ∧
      b.radius = node_radius ∧ b.color = bc ∧
      b.label = "b" ++ toString b.target := by
  simp only [scene_bias_nodes, List.mem_map, List.mem_range'] at h
  obtain ⟨l, ⟨i, hi, rfl⟩, rfl⟩ := h
  refine ⟨?_, ?_, rfl, rfl, rfl, rfl⟩
  · show 1 ≤ 1 + 1 * i
    omega
  · show 1 + 1 * i < m
    omega

lemma exists_scene_bias (m : Nat) (bc : String) (my : ℚ) (l : Nat)
    (h1 : 1 ≤ l) (h2 : l < m) :
    ∃ b ∈ scene_bias_nodes m bc my, b.target = l := by
  refine ⟨⟨l, bias_pos m my l, node_radius, bc, "b" ++ toString l⟩, ?_, rfl⟩
  simp only [scene_bias_nodes, List.mem_map]
  refine ⟨l, ?_, rfl⟩
  rw [List.mem_range']
  exact ⟨l - 1, by omega, by omega⟩

lemma filter_scene_bias_nodes (m : Nat) (bc : String) (my : ℚ) (l : Nat) :
    ((scene_bias_nodes m bc my).filter fun b => b.target == l).length =
      if 1 ≤ l ∧ l < m then 1 else 0 := by
  unfold scene_bias_nodes
  rw [length_filter_map]
  show ((List.range' 1 (m - 1)).filter fun x => x == l).length = _
  rw [filter_beq_range']
  have h : (1 ≤ l ∧ l < 1 + (m - 1)) ↔ (1 ≤ l ∧ l < m) := by omega
  rw [if_congr h rfl rfl]

/-! ### Edge lemmas -/

lemma sum_map_const_range (a b : Nat) :
    ((List.range a).map fun _ => b).sum = a * b := by
  induction a with
  | zero => simp
  | succ a ih =>
    rw [List.range_succ, List.map_append, List.sum_append, ih]
    simp [Nat.succ_mul]

lemma mem_solid_edges_at {ls : List Nat} {l : Nat} {e : SceneEdge}
    (h : e ∈ solid_edges_at ls l) :
    e.boundary = l ∧ e.style = EdgeStyle.solid := by
  simp only [solid_edges_at, List.mem_flatMap, List.mem_map, List.mem_range] at h
  obtain ⟨i, hi, j, hj, rfl⟩ := h
  exact ⟨rfl, rfl⟩

lemma mem_dashed_edges_at {ls : List Nat} {my : ℚ} {l : Nat} {e : SceneEdge}
    (h : e ∈ dashed_edges_at ls my l) :
    e.boundary = l ∧ e.style = EdgeStyle.dashed := by
  simp only [dashed_edges_at, List.mem_map, List.mem_range] at h
  obtain ⟨j, hj, rfl⟩ := h
  exact ⟨rfl, rfl⟩

lemma length_solid_edges_at (ls : List Nat) (l : Nat) :
    (solid_edges_at ls l).length = ls.getD l 0 * ls.getD (l + 1) 0 := by
  unfold solid_edges_at
  rw [List.length_flatMap]
  have h1 : List.map
        (List.length ∘ fun i =>
          (List.range (ls.getD (l + 1) 0)).map fun j =>
            ({ boundary := l, src := node_positions ls l i,
               dst := node_positions ls (l + 1) j,
               style := EdgeStyle.solid } : SceneEdge))
        (List.range (ls.getD l 0))
      = (List.range (ls.getD l 0)).map fun _ => ls.getD (l + 1) 0 := by
    apply List.map_congr_left
    intro i _
    simp [Function.comp]
  rw [h1, sum_map_const_range]

lemma length_dashed_edges_at (ls : List Nat) (my : ℚ) (l : Nat) :
    (dashed_edges_at ls my l).length = ls.getD (l + 1) 0 := by
  simp [dashed_edges_at]

lemma length_filter_scene_edges_solid (ls : List Nat) (my : ℚ) (l : Nat) :
    ((scene_edges ls my).filter fun e =>
        e.boundary == l && e.style == EdgeStyle.solid).length
      = ls.getD l 0 * ls.getD (l + 1) 0 := by
  unfold scene_edges
  rw [filter_flatMap_eq]
  have hpt : ∀ l' : Nat,
      ((solid_edges_at ls l' ++ dashed_edges_at ls my l').filter fun e =>
        e.boundary == l && e.style == EdgeStyle.solid)
      = if l' = l then solid_edges_at ls l' else [] := by
    intro l'
    rw [List.filter_append]
    rw [filter_const_of_mem _ _ (l' == l) fun e he => by
      obtain ⟨h1, h2⟩ := mem_solid_edges_at he
      simp [h1, h2]]
    rw [filter_const_of_mem _ _ false fun e he => by
      obtain ⟨h1, h2⟩ := mem_dashed_edges_at he
      simp [h1, h2]]
    by_cases h : l' = l <;> simp [h]
  simp only [hpt]
  rw [flatMap_range_ite]
  by_cases h : l < ls.length - 1
  · rw [if_pos h, length_solid_edges_at]
  · rw [if_neg h]
    have h2 : ls.getD (l + 1) 0 = 0 :=
      List.getD_eq_default _ _ (by omega)
    rw [h2, Nat.mul_zero]
    rfl

lemma length_filter_scene_edges_dashed (ls : List Nat) (my : ℚ) (l : Nat) :
    ((scene_edges ls my).filter fun e =>
        e.boundary == l && e.style == EdgeStyle.dashed).length
      = ls.getD (l + 1) 0 := by
  unfold scene_edges
  rw [filter_flatMap_eq]
  have hpt : ∀ l' : Nat,
      ((solid_edges_at ls l' ++ dashed_edges_at ls my l').filter fun e =>
        e.boundary == l && e.style == EdgeStyle.dashed)
      = if l' = l then dashed_edges_at ls my l' else [] := by
    intro l'
    rw [List.filter_append]
    rw [filter_const_of_mem _ _ false fun e he => by
      obtain ⟨h1, h2⟩ := mem_solid_edges_at he
      simp [h1, h2]]
    rw [filter_const_of_mem _ _ (l' == l) fun e he => by
      obtain ⟨h1, h2⟩ := mem_dashed_edges_at he
      simp [h1, h2]]
    by_cases h : l' = l <;> simp [h]
  simp only [hpt]
  rw [flatMap_range_ite]
  by_cases h : l < ls.length - 1
  · rw [if_pos h, length_dashed_edges_at]
  · rw [if_neg h]
    exact (List.getD_eq_default _ _ (by omega)).symm

/-! ### The scene produced for a non-empty layer list -/

lemma max?_isSome_of_ne_nil {ls : List Nat} (h : ls ≠ []) :
    ∃ mx, ls.max? = some mx := by
  cases hm : ls.max? with
  | none => exact absurd (List.max?_eq_none_iff.mp hm) h
  | some mx => exact ⟨mx, rfl⟩

lemma draw_eq_some {ls : List Nat} (cs : List String) (bc : String) {mx : Nat}
    (h : ls.max? = some mx) :
    draw_dynamic_neural_net ls cs bc = some
      { nodes := scene_nodes ls cs
        biasNodes := scene_bias_nodes ls.length bc ((mx : ℚ) * y_spacing / 2)
        edges := scene_edges ls ((mx : ℚ) * y_spacing / 2)
        xlim := (-1, (x_positions ls.length).getLastD 0 + 2)
        ylim := (-((mx : ℚ) * y_spacing / 2) - 3 / 2,
                 (mx : ℚ) * y_spacing / 2 + 2) } := by
  unfold draw_dynamic_neural_net
  rw [h]

/-! ### Claims -/

/-- C1: the claim states that calling the engine with `layerSizes = []` yields
an empty scene rather than an error.  In the code, `max(layer_sizes)` raises
`ValueError` on the empty list (modelled by `none`), so the call errors for
every choice of colors and bias color: the degenerate input is not handled. -/
theorem draw_empty_layer_sizes_errors (cs : List String) (bc : String) :
    draw_dynamic_neural_net [] cs bc = none := rfl

/-- C2: for every non-empty `layerSizes`, the scene has exactly
`layerSizes[l]` regular nodes at layer `l` (hence `Σ layerSizes` in total) and
exactly `len(layerSizes) - 1` bias nodes — exactly one per layer except the
first (none when there is only one layer). -/
theorem node_and_bias_counts (ls : List Nat) (cs : List String) (bc : String)
    (h : ls ≠ []) :
    ∃ s, draw_dynamic_neural_net ls cs bc = some s ∧
      s.nodes.length = ls.sum ∧
      (∀ l, ((s.nodes.filter fun nd => nd.layer == l).length) = ls.getD l 0) ∧
      s.biasNodes.length = ls.length - 1 ∧
      (∀ l, ((s.biasNodes.filter fun b => b.target == l).length) =
        if 1 ≤ l ∧ l < ls.length then 1 else 0) := by
  obtain ⟨mx, hm⟩ := max?_isSome_of_ne_nil h
  refine ⟨_, draw_eq_some cs bc hm, ?_, ?_, ?_, ?_⟩
  · exact length_scene_nodes ls cs
  · exact fun l => length_filter_scene_nodes ls cs l
  · exact length_scene_bias_nodes _ _ _
  · exact fun l => filter_scene_bias_nodes _ _ _ l

/-- Witness for `node_and_bias_counts` at the spec's end-to-end example
`[4, 6, 3]`: 13 regular nodes, 2 bias nodes. -/
theorem node_and_bias_counts_witness :
    ∃ s, draw_dynamic_neural_net [4, 6, 3] ["red", "blue", "green"] "gray"
        = some s ∧
      s.nodes.length = [4, 6, 3].sum ∧
      (∀ l, ((s.nodes.filter fun nd => nd.layer == l).length)
        = [4, 6, 3].getD l 0) ∧
      s.biasNodes.length = [4, 6, 3].length - 1 ∧
      (∀ l, ((s.biasNodes.filter fun b => b.target == l).length) =
        if 1 ≤ l ∧ l < [4, 6, 3].length then 1 else 0) :=
  node_and_bias_counts [4, 6, 3] ["red", "blue", "green"] "gray" (by decide)

/-- C3: for every non-empty `layerSizes` and every boundary `l → l+1`, the
scene has exactly `layerSizes[l] * layerSizes[l+1]` solid edges at that
boundary (the complete bipartite connection) and exactly `layerSizes[l+1]`
dashed edges from the bias node into layer `l+1`. -/
theorem edge_counts (ls : List Nat) (cs : List String) (bc : String)
    (h : ls ≠ []) :
    ∃ s, draw_dynamic_neural_net ls cs bc = some s ∧
      (∀ l, ((s.edges.filter fun e =>
          e.boundary == l && e.style == EdgeStyle.solid).length)
        = ls.getD l 0 * ls.getD (l + 1) 0) ∧
      (∀ l, ((s.edges.filter fun e =>
          e.boundary == l && e.style == EdgeStyle.dashed).length)
        = ls.getD (l + 1) 0) := by
  obtain ⟨mx, hm⟩ := max?_isSome_of_ne_nil h
  refine ⟨_, draw_eq_some cs bc hm, ?_, ?_⟩
  · exact fun l => length_filter_scene_edges_solid ls _ l
  · exact fun l => length_filter_scene_edges_dashed ls _ l

/-- Witness for `edge_counts` at `[4, 6, 3]`: 24 + 18 solid edges and
6 + 3 dashed edges. -/
theorem edge_counts_witness :
    ∃ s, draw_dynamic_neural_net [4, 6, 3] ["red", "blue", "green"] "gray"
        = some s ∧
      (∀ l, ((s.edges.filter fun e =>
          e.boundary == l && e.style == EdgeStyle.solid).length)
        = [4, 6, 3].getD l 0 * [4, 6, 3].getD (l + 1) 0) ∧
      (∀ l, ((s.edges.filter fun e =>
          e.boundary == l && e.style == EdgeStyle.dashed).length)
        = [4, 6, 3].getD (l + 1) 0) :=
  edge_counts [4, 6, 3] ["red", "blue", "green"] "gray" (by decide)

/-- C4: for every non-empty `layerSizes`, each node of layer `l` sits at
x-coordinate `l * X_SPACING`, its y-coordinate is
`-(k * Y_SPACING - (n - 1) * Y_SPACING / 2)` for its index `k` in the layer of
size `n = layerSizes[l]`, and the y-coordinates of each layer sum to `0`. -/
theorem layer_geometry (ls : List Nat) (cs : List String) (bc : String)
    (h : ls ≠ []) :
    ∃ s, draw_dynamic_neural_net ls cs bc = some s ∧
      (∀ nd ∈ s.nodes,
        nd.pos.1 = (nd.layer : ℚ) * x_spacing ∧
        nd.pos.2 = -((nd.idx : ℚ) * y_spacing -
          ((ls.getD nd.layer 0 : ℚ) - 1) * y_spacing / 2)) ∧
      (∀ l, (((s.nodes.filter fun nd => nd.layer == l).map
        fun nd => nd.pos.2).sum) = 0) := by
  obtain ⟨mx, hm⟩ := max?_isSome_of_ne_nil h
  refine ⟨_, draw_eq_some cs bc hm, ?_, ?_⟩
  · intro nd hnd
    obtain ⟨hl, hmem⟩ := mem_scene_nodes hnd
    obtain ⟨-, -, hpos, -, -, -⟩ := draw_layer_fields hmem
    rw [hpos]
    exact ⟨x_positions_getD hl, rfl⟩
  · intro l
    rw [filter_scene_nodes]
    by_cases hl : l < ls.length
    · rw [if_pos hl]
      exact sum_y_draw_layer _ _ _ _
    · rw [if_neg hl]
      rfl

/-- Witness for `layer_geometry` at `[4, 6, 3]`. -/
theorem layer_geometry_witness :
    ∃ s, draw_dynamic_neural_net [4, 6, 3] ["red", "blue", "green"] "gray"
        = some s ∧
      (∀ nd ∈ s.nodes,
        nd.pos.1 = (nd.layer : ℚ) * x_spacing ∧
        nd.pos.2 = -((nd.idx : ℚ) * y_spacing -
          ((([4, 6, 3] : List Nat).getD nd.layer 0 : ℚ) - 1) * y_spacing / 2)) ∧
      (∀ l, ((((s.nodes.filter fun nd => nd.layer == l)).map
        fun nd => nd.pos.2).sum) = 0) :=
  layer_geometry [4, 6, 3] ["red", "blue", "green"] "gray" (by decide)

/-- C5: for every non-empty `layerSizes`, the fill color of layer `i` is
`colors[i]` when `i < len(colors)` and the fixed fallback `"blue"` otherwise;
no error is raised whatever the length of the color list. -/
theorem color_fallback_policy (ls : List Nat) (cs : List String) (bc : String)
    (h : ls ≠ []) :
    ∃ s, draw_dynamic_neural_net ls cs bc = some s ∧
      ∀ nd ∈ s.nodes,
        nd.color = if nd.layer < cs.length then cs.getD nd.layer "blue"
          else "blue" := by
  obtain ⟨mx, hm⟩ := max?_isSome_of_ne_nil h
  refine ⟨_, draw_eq_some cs bc hm, ?_⟩
  intro nd hnd
  obtain ⟨-, hmem⟩ := mem_scene_nodes hnd
  obtain ⟨-, -, -, -, hcolor, -⟩ := draw_layer_fields hmem
  rw [hcolor]
  rfl

/-- Witness for `color_fallback_policy` at the spec's example
`layout([2, 2], colors=["red"], bias="gray")`: layer 0 is `"red"`, layer 1
falls back to `"blue"`. -/
theorem color_fallback_policy_witness :
    ∃ s, draw_dynamic_neural_net [2, 2] ["red"] "gray" = some s ∧
      ∀ nd ∈ s.nodes,
        nd.color = if nd.layer < ["red"].length then ["red"].getD nd.layer "blue"
          else "blue" :=
  color_fallback_policy [2, 2] ["red"] "gray" (by decide)

/-- C6: for every network with at least two layers, each bias node `b<l>`
(`1 ≤ l < len(layerSizes)`) sits at x equal to the midpoint of the
x-coordinates of layers `l - 1` and `l`, and at the single shared height
`max(layerSizes) * Y_SPACING / 2 + BIAS_Y_OFFSET` determined by the tallest
layer of the whole network; it is filled with the bias color and labeled
`b<l>`. -/
theorem bias_node_placement (ls : List Nat) (cs : List String) (bc : String)
    (h : 2 ≤ ls.length) :
    ∃ s mx, draw_dynamic_neural_net ls cs bc = some s ∧ ls.max? = some mx ∧
      (∀ b ∈ s.biasNodes,
        1 ≤ b.target ∧ b.target < ls.length ∧
        b.pos.1 = (((b.target : ℚ) - 1) * x_spacing
          + (b.target : ℚ) * x_spacing) / 2 ∧
        b.pos.2 = (mx : ℚ) * y_spacing / 2 + bias_y_offset ∧
        b.color = bc ∧ b.label = "b" ++ toString b.target) ∧
      (∀ l, 1 ≤ l → l < ls.length → ∃ b ∈ s.biasNodes, b.target = l) := by
  have hne : ls ≠ [] := by
    intro hnil
    rw [hnil] at h
    exact absurd h (by decide)
  obtain ⟨mx, hm⟩ := max?_isSome_of_ne_nil hne
  refine ⟨_, mx, draw_eq_some cs bc hm, hm, ?_, ?_⟩
  · intro b hb
    obtain ⟨h1, h2, hpos, -, hcolor, hlabel⟩ := mem_scene_bias_nodes hb
    refine ⟨h1, h2, ?_, ?_, hcolor, hlabel⟩
    · rw [hpos]
      show ((x_positions ls.length).getD (b.target - 1) 0
        + (x_positions ls.length).getD b.target 0) / 2 = _
      rw [x_positions_getD (by omega), x_positions_getD h2]
      have hc : ((b.target - 1 : Nat) : ℚ) = (b.target : ℚ) - 1 :=
        Nat.cast_pred (by omega)
      rw [hc]
    · rw [hpos]
      rfl
  · intro l h1 h2
    exact exists_scene_bias ls.length bc _ l h1 h2

/-- Witness for `bias_node_placement` at `[4, 6, 3]`: two bias nodes at the
midpoints `x = 1.5` and `x = 4.5`, both at `y = 6 * 1.5 / 2 + 0.8`. -/
theorem bias_node_placement_witness :
    ∃ s mx, draw_dynamic_neural_net [4, 6, 3] ["red", "blue", "green"] "gray"
        = some s ∧ ([4, 6, 3] : List Nat).max? = some mx ∧
      (∀ b ∈ s.biasNodes,
        1 ≤ b.target ∧ b.target < ([4, 6, 3] : List Nat).length ∧
        b.pos.1 = (((b.target : ℚ) - 1) * x_spacing
          + (b.target : ℚ) * x_spacing) / 2 ∧
        b.pos.2 = (mx : ℚ) * y_spacing / 2 + bias_y_offset ∧
        b.color = "gray" ∧ b.label = "b" ++ toString b.target) ∧
      (∀ l, 1 ≤ l → l < ([4, 6, 3] : List Nat).length →
        ∃ b ∈ s.biasNodes, b.target = l) :=
  bias_node_placement [4, 6, 3] ["red", "blue", "green"] "gray" (by decide)

/-- C7: for every non-empty `layerSizes`, each node's label is the prefix for
its layer — `"x"` for the first layer, `"o"` for the last, `"h"` for interior
layers — followed by the 1-based node index. -/
theorem node_label_rule (ls : List Nat) (cs : List String) (bc : String)
    (h : ls ≠ []) :
    ∃ s, draw_dynamic_neural_net ls cs bc = some s ∧
      ∀ nd ∈ s.nodes,
        nd.label = (if nd.layer = 0 then "x"
          else if nd.layer = ls.length - 1 then "o" else "h")
          ++ toString (nd.idx + 1) := by
  obtain ⟨mx, hm⟩ := max?_isSome_of_ne_nil h
  refine ⟨_, draw_eq_some cs bc hm, ?_⟩
  intro nd hnd
  obtain ⟨-, hmem⟩ := mem_scene_nodes hnd
  obtain ⟨-, -, -, -, -, hlabel⟩ := draw_layer_fields hmem
  rw [hlabel]
  rfl

/-- Witness for `node_label_rule` at `[4, 6, 3]`: labels `x1..x4`, `h1..h6`,
`o1..o3`. -/
theorem node_label_rule_witness :
    ∃ s, draw_dynamic_neural_net [4, 6, 3] ["red", "blue", "green"] "gray"
        = some s ∧
      ∀ nd ∈ s.nodes,
        nd.label = (if nd.layer = 0 then "x"
          else if nd.layer = ([4, 6, 3] : List Nat).length - 1 then "o" else "h")
          ++ toString (nd.idx + 1) :=
  node_label_rule [4, 6, 3] ["red", "blue", "green"] "gray" (by decide)

/-- `DiagramInput` construction succeeds exactly when the color count matches
the layer count. -/
lemma diagramInput_validate_isOk (ls : List Int) (cs : List String)
    (bc : String) :
    ((DiagramInput.validate ls cs bc).isOk = true) ↔ ls.length = cs.length := by
  unfold DiagramInput.validate
  by_cases h : ls.length = cs.length
  · simp [h, Except.isOk, Except.toBool]
  · simp [h, Except.isOk, Except.toBool]

/-- C8: the strict request-validation variant (`DiagramInput` in
`src/models.py`) fails construction exactly when
`len(layer_sizes) != len(colors)` and succeeds otherwise. -/
theorem strict_validation_iff_length_eq (ls : List Int) (cs : List String)
    (bc : String) :
    ((DiagramInput.validate ls cs bc).isOk = true) ↔ ls.length = cs.length :=
  diagramInput_validate_isOk ls cs bc

/-- C9 counterexample: the claim states that a request whose `layer_sizes`
contains a negative integer is rejected by validation before layout.  The
request `layer_sizes = [-1], colors = ["red"], bias_color = "gray"` contains a
negative size, yet both schema variants accept it: neither checks the sign of
the layer sizes. -/
theorem negative_sizes_pass_validation_cex :
    ((-1 : Int) < 0) ∧
    (NeuralNetInput.validate [-1] ["red"] "gray").isOk = true ∧
    (DiagramInput.validate [-1] ["red"] "gray").isOk = true :=
  ⟨by decide, rfl, rfl⟩

/-- C9 amended: requests with negative layer sizes are not rejected — the
lenient schema `NeuralNetInput` accepts every well-typed request, and the
strict schema `DiagramInput` accepts it whenever the color count matches the
layer count; neither validation checks the sign, so such inputs do reach the
layout engine. -/
theorem negative_sizes_not_rejected (ls : List Int) (cs : List String)
    (bc : String) (_h : ∃ x ∈ ls, x < 0) :
    (NeuralNetInput.validate ls cs bc).isOk = true ∧
    ((DiagramInput.validate ls cs bc).isOk = true ↔ ls.length = cs.length) :=
  ⟨rfl, diagramInput_validate_isOk ls cs bc⟩

/-- Witness for `negative_sizes_not_rejected` at `layer_sizes = [-1]`. -/
theorem negative_sizes_not_rejected_witness :
    (NeuralNetInput.validate [-1] ["red"] "gray").isOk = true ∧
    ((DiagramInput.validate [-1] ["red"] "gray").isOk = true ↔
      ([-1] : List Int).length = ["red"].length) :=
  negative_sizes_not_rejected [-1] ["red"] "gray" ⟨-1, by simp, by decide⟩

/-- C10: in a network with exactly one layer, the first-layer rule wins over
the last-layer rule: every node of the single layer is labeled with the
`"x"` prefix. -/
theorem single_layer_prefix_x (n : Nat) (cs : List String) (bc : String) :
    ∃ s, draw_dynamic_neural_net [n] cs bc = some s ∧
      ∀ nd ∈ s.nodes, nd.label = "x" ++ toString (nd.idx + 1) := by
  have hm : ([n] : List Nat).max? = some n := rfl
  refine ⟨_, draw_eq_some cs bc hm, ?_⟩
  intro nd hnd
  obtain ⟨hl, hmem⟩ := mem_scene_nodes hnd
  obtain ⟨-, -, -, -, -, hlabel⟩ := draw_layer_fields hmem
  rw [hlabel]
  have h0 : nd.layer = 0 := by
    simpa using hl
  rw [h0]
  rfl

end TinyNN
